import Mathlib

/-!
Verification development for the CarSales training pipeline
(`src/prep.py`, `src/train.py`, `src/register.py`).

The Python code is shallowly embedded: each cell value is a `Val`
(missing sentinel, finite numeric value, or text), pandas semantics of
comparisons with the missing sentinel are explicit, and the regular
expression search of `extract_float` is implemented directly with the
greedy/backtracking semantics of Python's `re.search` for the pattern
`[-+]?\d*\.?\d+(?:[eE][-+]?\d+)?`.
-/

namespace CarSales

/-- A single cell of the raw table: the missing sentinel (`NaN`/`None`),
an already-numeric value, or a textual value.  Numeric magnitudes are
modelled by exact rationals. -/
inductive Val where
  | missing
  | num (q : ℚ)
  | str (s : String)
deriving DecidableEq

/-- Run of leading ASCII digits (the regex token `\d*`). -/
def takeDigits (cs : List Char) : List Char := cs.takeWhile Char.isDigit

/-- Remainder after the leading digit run. -/
def dropDigits (cs : List Char) : List Char := cs.dropWhile Char.isDigit

/-- Matcher for the mantissa `\d*\.?\d+` starting at the current
position, after the leading digit run `d1` has been split off and `r1`
is the rest.  Returns the matched text and the remainder, reproducing
the greedy-with-backtracking behaviour of Python's `re`:
`"12.5x" ↦ "12.5"`, `"12.x" ↦ "12"`, `".5" ↦ ".5"`, `".x" ↦ no match`. -/
def matchADot (d1 r1 : List Char) : Option (List Char × List Char) :=
  match r1 with
  | [] => if d1.isEmpty then none else some (d1, [])
  | c :: r2 =>
    if c = '.' then
      (if (takeDigits r2).isEmpty then
        (if d1.isEmpty then none else some (d1, r1))
      else some (d1 ++ c :: takeDigits r2, dropDigits r2))
    else if d1.isEmpty then none else some (d1, r1)

/-- Matcher for `\d*\.?\d+` at the start of `cs`. -/
def matchA (cs : List Char) : Option (List Char × List Char) :=
  matchADot (takeDigits cs) (dropDigits cs)

/-- Matcher for the optional exponent `(?:[eE][-+]?\d+)?` at the start
of `cs`; always succeeds, possibly with the empty match. -/
def matchB (cs : List Char) : List Char × List Char :=
  match cs with
  | c :: s :: rest =>
    if c = 'e' ∨ c = 'E' then
      if s = '+' ∨ s = '-' then
        (if (takeDigits rest).isEmpty then ([], cs)
        else (c :: s :: takeDigits rest, dropDigits rest))
      else
        (if (takeDigits (s :: rest)).isEmpty then ([], cs)
        else (c :: takeDigits (s :: rest), dropDigits (s :: rest)))
    else ([], cs)
  | [_] => ([], cs)
  | [] => ([], [])

/-- Matcher for the full pattern `[-+]?\d*\.?\d+(?:[eE][-+]?\d+)?`
anchored at the start of `cs`. -/
def matchAt (cs : List Char) : Option (List Char × List Char) :=
  match cs with
  | [] => none
  | c :: rest =>
    if c = '+' ∨ c = '-' then
      match matchA rest with
      | none => none
      | some (a, r) => some (c :: (a ++ (matchB r).1), (matchB r).2)
    else
      match matchA cs with
      | none => none
      | some (a, r) => some (a ++ (matchB r).1, (matchB r).2)

/-- `re.search`: try the anchored matcher at each position from the
left, returning the first (leftmost) match. -/
def searchNum : List Char → Option (List Char)
  | [] => none
  | c :: rest =>
    match matchAt (c :: rest) with
    | some (m, _) => some m
    | none => searchNum rest

/-- Numeric value of a digit run. -/
def digitsVal (l : List Char) : Nat :=
  l.foldl (fun n c => 10 * n + (c.toNat - 48)) 0

/-- The exact rational `m * 10 ^ k` for an integer mantissa `m` and a
(possibly negative) decimal exponent `k`. -/
def scaledDecimal (m : ℤ) (k : ℤ) : ℚ :=
  if 0 ≤ k then ((m * (10 : ℤ) ^ k.toNat : ℤ) : ℚ)
  else mkRat m ((10 : ℕ) ^ (-k).toNat)

/-- Value of the unsigned part `d1[.d2][eE[±]d3]` of a matched string:
the exact value of the decimal literal. -/
def parseUnsigned (m : List Char) : ℚ :=
  let mantChars := m.takeWhile (fun c => c.isDigit || c = '.')
  let expChars := m.dropWhile (fun c => c.isDigit || c = '.')
  let ip := takeDigits mantChars
  let fp := match dropDigits mantChars with
    | '.' :: t => t
    | _ => []
  let e : ℤ := match expChars with
    | _ :: '-' :: d => -(digitsVal (takeDigits d) : ℤ)
    | _ :: '+' :: d => (digitsVal (takeDigits d) : ℤ)
    | _ :: d => (digitsVal (takeDigits d) : ℤ)
    | [] => 0
  scaledDecimal (digitsVal (ip ++ fp) : ℤ) (e - fp.length)

/-- Value denoted by a full matched string (`float(...)` on the match). -/
def parseFloatChars (m : List Char) : ℚ :=
  match m with
  | '-' :: t => -(parseUnsigned t)
  | '+' :: t => parseUnsigned t
  | _ => parseUnsigned m

/-- `extract_float` from `src/prep.py`: missing passes through as the
sentinel (`pd.isna`), numeric values pass through as floats, and text is
searched for the first numeric substring, which is parsed; if no
substring matches, the sentinel is returned. -/
def extract_float : Val → Val
  | .missing => .missing
  | .num q => .num q
  | .str s =>
    match searchNum s.data with
    | some m => .num (parseFloatChars m)
    | none => .missing

example : extract_float (.str ("ab-12.5e1x")) = .num (-125) := by decide
example : extract_float (.str ("null")) = .missing := by decide
example : extract_float (.str ("12.x")) = .num 12 := by decide
example : extract_float (.str (".5kmpl")) = .num (mkRat 1 2) := by decide
example : extract_float (.str ("+.5")) = .num (mkRat 1 2) := by decide
example : extract_float (.str ("e5")) = .num 5 := by decide
example : extract_float (.str ("1e+2")) = .num 100 := by decide
example : extract_float (.str ("1e+x")) = .num 1 := by decide
example : extract_float (.num 3) = .num 3 := rfl
example : extract_float .missing = .missing := rfl

/-! ## Row Validator / Cleaner (`preprocess_data`, `src/prep.py` lines 47-56) -/

/-- One row of the input table, with the columns required by
`preprocess_data`. -/
structure RawRow where
  segment : Val
  kilometersDriven : Val
  mileage : Val
  engine : Val
  power : Val
  seats : Val
  price : Val
deriving DecidableEq

/-- Column-wise coercion step: `df[col] = df[col].apply(extract_float)`
for every numeric column (including the target); the categorical
`Segment` column is left untouched. -/
def coerce_numeric (r : RawRow) : RawRow :=
  { segment := r.segment
    kilometersDriven := extract_float r.kilometersDriven
    mileage := extract_float r.mileage
    engine := extract_float r.engine
    power := extract_float r.power
    seats := extract_float r.seats
    price := extract_float r.price }

/-- `pd.isna` on a coerced cell. -/
def isMissingVal : Val → Bool
  | .missing => true
  | _ => false

/-- pandas `series > c`: comparisons with the missing sentinel are
false (NaN compares false). -/
def valGt (v : Val) (c : ℚ) : Bool :=
  match v with
  | .num q => decide (c < q)
  | _ => false

/-- pandas `series >= c`: comparisons with the missing sentinel are
false. -/
def valGe (v : Val) (c : ℚ) : Bool :=
  match v with
  | .num q => decide (c ≤ q)
  | _ => false

/-- The cleaning stage of `preprocess_data`: coerce the numeric
columns, `dropna(subset=["price"])`, then keep rows with
`price > 0` and `Kilometers_Driven >= 0`. -/
def preprocess_clean (rows : List RawRow) : List RawRow :=
  (((rows.map coerce_numeric).filter
      (fun r => !(isMissingVal r.price))).filter
    (fun r => valGt r.price 0 && valGe r.kilometersDriven 0))

/-! ## Categorical pipeline (`categorical_pipe`, `src/prep.py` lines 69-77)

`SimpleImputer(strategy="most_frequent")` followed by
`OneHotEncoder(handle_unknown="ignore")`.  Categorical raw cells are
`Option String` (`none` being the missing sentinel).  String order is
the code-point lexicographic order that Python string comparison and
`np.unique`/`np.sort` on object arrays use. -/

/-- Code-point comparison of two characters. -/
def charLt (a b : Char) : Bool := a.toNat < b.toNat

/-- Lexicographic code-point order on character lists (Python `<` on
strings). -/
def strLt : List Char → List Char → Bool
  | [], [] => false
  | [], _ :: _ => true
  | _ :: _, [] => false
  | x :: xs, y :: ys => charLt x y || (x = y && strLt xs ys)

/-- Sorted duplicate-free insertion, the building block of `np.unique`. -/
def insertStr (x : String) : List String → List String
  | [] => [x]
  | y :: ys =>
    if strLt x.data y.data then x :: y :: ys
    else if x = y then y :: ys
    else y :: insertStr x ys

/-- `np.unique`: the distinct values in ascending order. -/
def npUnique (l : List String) : List String :=
  l.foldr insertStr []

/-- Number of occurrences of `x` in `l`. -/
def countOcc (l : List String) (x : String) : Nat :=
  l.count x

/-- `SimpleImputer(strategy="most_frequent")` fit on the non-missing
values: the value with the highest count; ties are broken by the
smallest value (scikit-learn scans the sorted unique values and keeps
the first maximum).  Defaults to `""` on an empty column. -/
def mostFrequent (l : List String) : String :=
  match npUnique l with
  | [] => ""
  | c :: cs =>
    cs.foldl (fun best cand =>
      if countOcc l best < countOcc l cand then cand else best) c

/-- Imputation at transform time: missing cells become the fitted mode. -/
def imputeCat (mode : String) (x : Option String) : String :=
  x.getD mode

/-- The fitted state of the categorical pipeline: the imputer's mode
and the encoder's vocabulary (`categories_`, sorted). -/
structure FittedCat where
  mode : String
  vocab : List String
deriving DecidableEq

/-- Fit of the categorical pipeline on a raw column: the mode of the
non-missing values, then the encoder's vocabulary is the sorted set of
distinct values of the imputed column. -/
def fitCat (col : List (Option String)) : FittedCat :=
  let mode := mostFrequent (col.filterMap id)
  { mode := mode
    vocab := npUnique (col.map (imputeCat mode)) }

/-- One-hot encoding against a fitted vocabulary, with
`handle_unknown="ignore"`: one indicator column per fitted category;
a value outside the vocabulary yields every indicator 0. -/
def oneHot (vocab : List String) (c : String) : List ℚ :=
  vocab.map (fun v => if v = c then 1 else 0)

/-- Transform of the categorical pipeline: impute, then one-hot encode. -/
def applyCat (f : FittedCat) (x : Option String) : List ℚ :=
  oneHot f.vocab (imputeCat f.mode x)

/-! ## The fitted Feature Transformer (`preprocessor`, `src/prep.py`
lines 64-83)

`ColumnTransformer` of the numeric pipeline (median imputation +
standardization) over the five numeric columns followed by the
categorical pipeline over `Segment`.  The fitted per-column statistics
are data of the transformer; `transform` only reads them. -/

/-- Fitted statistics of one numeric column: the imputer's median and
the scaler's mean and scale (standard deviation). -/
structure FittedNum where
  median : ℚ
  mean : ℚ
  scale : ℚ
deriving DecidableEq

/-- Numeric column transform: substitute the median for missing, then
standardize. -/
def applyNum (f : FittedNum) (x : Option ℚ) : ℚ :=
  (x.getD f.median - f.mean) / f.scale

/-- A fitted `ColumnTransformer`: per-numeric-column statistics (in
column order) and the fitted categorical pipeline. -/
structure Transformer where
  nums : List FittedNum
  cat : FittedCat
deriving DecidableEq

/-- One raw input row at transform time: the numeric cells (in column
order) and the categorical cell. -/
structure InRow where
  nums : List (Option ℚ)
  segment : Option String
deriving DecidableEq

/-- Transform of one row: numeric columns first in their original
order, then the one-hot block. -/
def applyRow (t : Transformer) (r : InRow) : List ℚ :=
  (List.zipWith applyNum t.nums r.nums) ++ applyCat t.cat r.segment

/-- `preprocessor.transform` on a table, in state-passing form: the
result is the transformed matrix together with the transformer object
after the call.  The source's `transform` only reads the fitted
attributes (`statistics_`, `mean_`, `scale_`, `categories_`) and never
assigns them, so the resulting object state is the input state. -/
def transform (t : Transformer) (xs : List InRow) : List (List ℚ) × Transformer :=
  (xs.map (applyRow t), t)

/-! ## Persisted feature names (`feature_names`, `src/prep.py` lines 96-98) -/

/-- The numeric feature columns, in the order fixed by the source. -/
def numeric_features : List String :=
  [("Kilometers_Driven"), ("Mileage"), ("Engine"), ("Power"), ("Seats")]

/-- Distinct values in order of first appearance
(`pandas.Series.unique`, which keeps missing values as a value). -/
def firstUnique {α : Type} [DecidableEq α] (l : List α) : List α :=
  l.foldl (fun acc c => if c ∈ acc then acc else acc ++ [c]) []

/-- `f"Segment_{cat}"` on a raw category; Python prints the missing
float as `nan`. -/
def catDisplay : Option String → String
  | some c => ("Segment_") ++ c
  | none => ("Segment_nan")

/-- The persisted feature-name list: the numeric feature names followed
by one `Segment_<cat>` name per first-appearance distinct raw value of
the `Segment` column. -/
def feature_names (segCol : List (Option String)) : List String :=
  numeric_features ++ (firstUnique segCol).map catDisplay

/-- The list that would name the transformed output columns in their
actual order: the numeric columns first, then one name per fitted
vocabulary entry, in vocabulary order. -/
def alignedNames (vocab : List String) : List String :=
  numeric_features ++ vocab.map (fun c => ("Segment_") ++ c)

example : npUnique [("b"), ("a"), ("b")] = [("a"), ("b")] := by decide
example : mostFrequent [("b"), ("a"), ("b")] = "b" := by decide
example : mostFrequent [("b"), ("a")] = "a" := by decide
example : fitCat [some ("b"), none, some ("a"), some ("b")] =
    { mode := "b", vocab := [("a"), ("b")] } := by decide
example : applyCat { mode := "b", vocab := [("a"), ("b")] } (some ("z")) = [0, 0] := by decide
example : feature_names [some ("b"), some ("a"), some ("b")] =
    numeric_features ++ [("Segment_b"), ("Segment_a")] := by decide

/-! ## IEEE-style values and the improvement formula
(`src/train.py` lines 114, 139, 180)

The RMSE values in `train.py` are numpy floats: dividing by zero does
not raise, it produces `inf`/`-inf`/`nan` silently.  `FVal` models a
numpy scalar as a finite rational or one of the three non-finite
values, and `fsub`/`fmul`/`fdiv` follow the IEEE rules (rationals have
no signed zero, so a zero denominator carries positive sign, exactly as
`np.float64(0.0)` does). -/

inductive FVal where
  | fin (q : ℚ)
  | posInf
  | negInf
  | nan
deriving DecidableEq

/-- IEEE subtraction. -/
def fsub : FVal → FVal → FVal
  | .nan, _ => .nan
  | _, .nan => .nan
  | .posInf, .posInf => .nan
  | .posInf, _ => .posInf
  | .negInf, .negInf => .nan
  | .negInf, _ => .negInf
  | .fin _, .posInf => .negInf
  | .fin _, .negInf => .posInf
  | .fin a, .fin b => .fin (a - b)

/-- IEEE multiplication. -/
def fmul : FVal → FVal → FVal
  | .nan, _ => .nan
  | _, .nan => .nan
  | .posInf, .posInf => .posInf
  | .posInf, .negInf => .negInf
  | .posInf, .fin b => if b = 0 then .nan else if 0 < b then .posInf else .negInf
  | .negInf, .posInf => .negInf
  | .negInf, .negInf => .posInf
  | .negInf, .fin b => if b = 0 then .nan else if 0 < b then .negInf else .posInf
  | .fin a, .posInf => if a = 0 then .nan else if 0 < a then .posInf else .negInf
  | .fin a, .negInf => if a = 0 then .nan else if 0 < a then .negInf else .posInf
  | .fin a, .fin b => .fin (a * b)

/-- IEEE division; in particular `x / 0` is `±inf` for `x ≠ 0` and
`0 / 0` is `nan`, with no exception - numpy only emits a warning. -/
def fdiv : FVal → FVal → FVal
  | .nan, _ => .nan
  | _, .nan => .nan
  | .posInf, .posInf => .nan
  | .posInf, .negInf => .nan
  | .posInf, .fin b => if b < 0 then .negInf else .posInf
  | .negInf, .posInf => .nan
  | .negInf, .negInf => .nan
  | .negInf, .fin b => if b < 0 then .posInf else .negInf
  | .fin _, .posInf => .fin 0
  | .fin _, .negInf => .fin 0
  | .fin a, .fin b =>
    if b = 0 then (if a = 0 then .nan else if 0 < a then .posInf else .negInf)
    else .fin (a / b)

/-- `(baseline_rmse - best_rmse) / baseline_rmse * 100` exactly as the
source computes it, with no guard on the denominator. -/
def improvement_percent (baseline best : FVal) : FVal :=
  fmul (fdiv (fsub baseline best) baseline) (.fin 100)

/-! ## Feature-importance ranking (`src/train.py` lines 159-165)

`pd.DataFrame(...).sort_values("importance", ascending=False)`.
pandas computes an ascending argsort of the key column and, for
`ascending=False`, reverses it (`nargsort` in `pandas/core/sorting.py`);
for arrays of this size numpy's introsort runs its stable insertion
sort, so the embedding is a stable ascending sort followed by a
reversal. -/

/-- Comparison on (feature name, importance score) rows used by the
ascending sort. -/
def impLe (a b : String × ℚ) : Prop := a.2 ≤ b.2

instance : DecidableRel impLe :=
  fun a b => inferInstanceAs (Decidable (a.2 ≤ b.2))

instance : IsTotal (String × ℚ) impLe :=
  ⟨fun a b => le_total a.2 b.2⟩

instance : IsTrans (String × ℚ) impLe :=
  ⟨fun _ _ _ h1 h2 => le_trans h1 h2⟩

/-- `sort_values("importance", ascending=False)`: stable ascending sort
by score, then reversal. -/
def sort_values_desc (l : List (String × ℚ)) : List (String × ℚ) :=
  (List.insertionSort impLe l).reverse

/-- The persisted feature-importance table: the feature names zipped
with the model's native importance scores, sorted by descending score. -/
def feature_importance (names : List String) (scores : List ℚ) :
    List (String × ℚ) :=
  sort_values_desc (names.zip scores)

/-! ## Training Engine (`train_model` and its grid search,
`src/train.py` lines 49-142)

The scikit-learn numerical internals (the Mersenne-Twister permutation
behind `train_test_split`, random-forest fitting/prediction, square
root) are deterministic functions of their seed and data; they are
abstracted as the fields of `SkLib` and the embedding threads the
seeding exactly as the source does.  `g` is the ambient global
random state that a component would consume if its `random_state` were
left as `None`; the source passes the literal seed `42` everywhere. -/

/-- scikit-learn's seed resolution: an explicit integer seed is used as
given; `None` falls back to the ambient global state. -/
def checkRandomState (seed : Option Nat) (g : Nat) : Nat :=
  seed.getD g

/-- One random-forest hyperparameter assignment from the grid. -/
structure RFParams where
  n_estimators : Nat
  max_depth : Option Nat
  min_samples_split : Nat
  min_samples_leaf : Nat
deriving DecidableEq

/-- The baseline configuration
(`RandomForestRegressor(n_estimators=100, random_state=42)` with
default depth and split parameters). -/
def baselineParams : RFParams :=
  { n_estimators := 100, max_depth := none
    min_samples_split := 2, min_samples_leaf := 1 }

/-- The declared search grid, enumerated the way
`sklearn.model_selection.ParameterGrid` does: keys in sorted order
(`max_depth`, `min_samples_leaf`, `min_samples_split`,
`n_estimators`), the last key varying fastest. -/
def param_grid : List RFParams :=
  [none, some 10, some 20, some 30].foldr (fun md acc =>
    [1, 2, 4].foldr (fun msl acc2 =>
      [2, 5, 10].foldr (fun mss acc3 =>
        [100, 200, 300].foldr (fun ne acc4 =>
          { n_estimators := ne, max_depth := md
            min_samples_split := mss, min_samples_leaf := msl } :: acc4)
          acc3) acc2) acc) []

/-- The deterministic numerical collaborators of the engine. -/
structure SkLib where
  permutation : Nat → Nat → List Nat
  rfPredict : Nat → RFParams → List (List ℚ) → List ℚ → List (List ℚ) → List ℚ
  rfImportances : Nat → RFParams → List (List ℚ) → List ℚ → List ℚ
  npSqrt : ℚ → ℚ

/-- Sum of a list of rationals. -/
def qSum (l : List ℚ) : ℚ := l.foldl (fun a b => a + b) 0

/-- Arithmetic mean. -/
def qMean (l : List ℚ) : ℚ := qSum l / l.length

/-- Mean squared error of predictions against targets. -/
def mseOf (pred tgt : List ℚ) : ℚ :=
  qMean (List.zipWith (fun p t => (p - t) ^ 2) pred tgt)

/-- Mean absolute error. -/
def maeOf (pred tgt : List ℚ) : ℚ :=
  qMean (List.zipWith (fun p t => |p - t|) pred tgt)

/-- Coefficient of determination `1 - ss_res / ss_tot`. -/
def r2Of (pred tgt : List ℚ) : ℚ :=
  1 - qSum (List.zipWith (fun p t => (t - p) ^ 2) pred tgt) /
      qSum (tgt.map (fun t => (t - qMean tgt) ^ 2))

/-- The three held-out metrics of one fitted model (`compute_rmse`,
`mean_absolute_error`, `r2_score`). -/
structure Metrics where
  rmse : ℚ
  mae : ℚ
  r2 : ℚ
deriving DecidableEq

/-- Evaluate predictions on the held-out targets. -/
def evalOn (lib : SkLib) (pred tgt : List ℚ) : Metrics :=
  { rmse := lib.npSqrt (mseOf pred tgt)
    mae := maeOf pred tgt
    r2 := r2Of pred tgt }

inductive TrainErr where
  | invalidSplit
  | insufficientData
deriving DecidableEq

/-- `train_test_split(X, y, test_size=0.2, random_state=42)`: a seeded
permutation of the row indices; the first `ceil(n/5)` permuted rows are
the test split and the rest the training split.  scikit-learn raises
when the resulting training split would be empty. -/
def train_test_split (lib : SkLib) (g : Nat) (X : List (List ℚ)) (y : List ℚ) :
    Except TrainErr ((List (List ℚ) × List ℚ) × (List (List ℚ) × List ℚ)) :=
  let n := X.length
  let nTest := (n + 4) / 5
  let nTrain := n - nTest
  if nTrain = 0 then .error .invalidSplit
  else
    let perm := lib.permutation (checkRandomState (some 42) g) n
    let testIdx := perm.take nTest
    let trainIdx := perm.drop nTest
    .ok ((trainIdx.map (fun i => X.getD i []), trainIdx.map (fun i => y.getD i 0)),
      (testIdx.map (fun i => X.getD i []), testIdx.map (fun i => y.getD i 0)))

/-- `KFold(3)` without shuffling: contiguous folds; the first `n mod 3`
folds get one extra row.  Returns (start, length) per fold. -/
def foldBounds (k n : Nat) : List (Nat × Nat) :=
  (List.range k).map (fun i =>
    (i * (n / k) + min i (n % k), n / k + (if i < n % k then 1 else 0)))

/-- Score of one configuration on one fold `(start, length)`: the
negated RMSE of a forest fitted with seed 42 on the other rows and
evaluated on the fold. -/
def foldScore (lib : SkLib) (g : Nat) (p : RFParams)
    (X : List (List ℚ)) (y : List ℚ) (sl : Nat × Nat) : ℚ :=
  -(lib.npSqrt (mseOf
      (lib.rfPredict (checkRandomState (some 42) g) p
        (X.take sl.1 ++ X.drop (sl.1 + sl.2))
        (y.take sl.1 ++ y.drop (sl.1 + sl.2))
        ((X.drop sl.1).take sl.2))
      ((y.drop sl.1).take sl.2)))

/-- Mean cross-validation score of one configuration: negated RMSE on
each validation fold, averaged over the 3 folds. -/
def cvMeanScore (lib : SkLib) (g : Nat) (p : RFParams)
    (X : List (List ℚ)) (y : List ℚ) : ℚ :=
  qSum ((foldBounds 3 X.length).map (foldScore lib g p X y)) / 3

/-- `GridSearchCV(..., cv=3).fit` on the training split: `KFold`
refuses to run when there are fewer rows than folds
(`n_splits > n_samples` raises); otherwise every grid combination is
scored and the best mean score wins, ties going to the first
combination in enumeration order. -/
def grid_search_fit (lib : SkLib) (g : Nat)
    (X : List (List ℚ)) (y : List ℚ) : Except TrainErr RFParams :=
  if X.length < 3 then .error .insufficientData
  else
    match param_grid.map (fun p => (p, cvMeanScore lib g p X y)) with
    | [] => .error .insufficientData
    | s :: ss =>
      .ok (ss.foldl (fun best cand => if best.2 < cand.2 then cand else best) s).1

/-- The persisted evaluation results of one training run
(`evaluation_results` in `train_model`). -/
structure EvalResults where
  baseline : Metrics
  best : Metrics
  best_params : RFParams
  improvement : FVal
  featureImportance : List (String × ℚ)
deriving DecidableEq

/-- `train_model` from `src/train.py`: split with seed 42, fit the
baseline forest with seed 42, grid-search with 3-fold cross-validation
over forests seeded 42, evaluate both on the held-out split, and
assemble the evaluation results.  `g` is the ambient global random
state; it is threaded to every seeding point, where the source always
supplies the literal 42. -/
def train_model (lib : SkLib) (g : Nat) (featureNames : List String)
    (X : List (List ℚ)) (y : List ℚ) : Except TrainErr EvalResults :=
  match train_test_split lib g X y with
  | .error e => .error e
  | .ok ((Xtr, ytr), (Xte, yte)) =>
    let baseM := evalOn lib
      (lib.rfPredict (checkRandomState (some 42) g) baselineParams Xtr ytr Xte) yte
    match grid_search_fit lib g Xtr ytr with
    | .error e => .error e
    | .ok bestP =>
      let bestM := evalOn lib
        (lib.rfPredict (checkRandomState (some 42) g) bestP Xtr ytr Xte) yte
      .ok { baseline := baseM
            best := bestM
            best_params := bestP
            improvement := improvement_percent (.fin baseM.rmse) (.fin bestM.rmse)
            featureImportance := feature_importance featureNames
              (lib.rfImportances (checkRandomState (some 42) g) bestP Xtr ytr) }

/-! ## Registration (`register_model`, `src/register.py` lines 94-131)

The source interacts with the registry collaborator twice:

1. `mlflow.sklearn.log_model(..., registered_model_name=model_name)`
   (lines 94-100) registers the model as part of logging it.  This call
   is *not* guarded: mlflow's registration path tolerates only an
   already-existing name (it then creates a new version); if the
   registry is unreachable or rejects the request, the exception
   propagates out of `register_model` (and `main` re-raises it).
2. `mlflow.register_model(model_uri, model_name)` (lines 117-131) is
   wrapped in `try/except`: a failure is printed as a warning and the
   run continues to the validation and summary steps.

Each interaction's answer is a `RegistryOutcome`; `failure` stands for
an unreachable registry or a rejection (a plain naming conflict is not
a failure of the first call).  The serialized artifacts were written to
disk by the training stage; no path of the registration step deletes
them, so the resulting `RegState` exists even when the step raises. -/

inductive RegistryOutcome where
  | registered (version : Nat)
  | failure (msg : String)
deriving DecidableEq

/-- The state the registration step acts on: the artifact identifiers
already serialized locally, plus the run's tags and warnings. -/
structure RegState where
  artifacts : List String
  tags : List (String × String)
  warnings : List String
deriving DecidableEq

inductive RegError where
  | raised (msg : String)
deriving DecidableEq

/-- The summary returned by `register_model`. -/
structure RegSummary where
  modelName : String
  registeredVersion : Option Nat
deriving DecidableEq

/-- `register_model`: first the unguarded registration inside
`log_model` (lines 94-100) - its failure raises to the caller; then the
guarded `mlflow.register_model` (lines 114-131) - on success the
version tags are added, on failure the exception is caught and a
warning is recorded, and the run continues to the summary either way.
The returned `RegState` is the on-disk/run state after the step (it
exists even when the step raises); the `Except` component records
whether the step raises to the caller and otherwise carries the
summary. -/
def register_model (logRegistry registry : RegistryOutcome) (name : String)
    (st : RegState) : RegState × Except RegError RegSummary :=
  match logRegistry with
  | .failure msg => (st, .error (.raised msg))
  | .registered _ =>
    match registry with
    | .registered v =>
      ({ st with tags := st.tags ++ [(("model_version"), toString v)] },
        .ok { modelName := name, registeredVersion := some v })
    | .failure msg =>
      ({ st with warnings := st.warnings ++ [msg] },
        .ok { modelName := name, registeredVersion := none })

/-! ## Concrete instances used by witnesses -/

/-- A concrete deterministic instance of the numerical collaborators. -/
def skLib0 : SkLib :=
  { permutation := fun _ n => List.range n
    rfPredict := fun _ _ _ _ Xe => Xe.map (fun _ => 0)
    rfImportances := fun _ _ _ _ => []
    npSqrt := fun q => q }

/-- A surviving row carrying a negative `Mileage` value. -/
def c2row : RawRow :=
  { segment := .str ("A"), kilometersDriven := .num 10, mileage := .num (-1)
    engine := .num 1, power := .num 1, seats := .num 5, price := .num 5 }

/-- A fully valid row. -/
def c2wrow : RawRow :=
  { segment := .str ("B"), kilometersDriven := .num 0, mileage := .num 15
    engine := .num 1200, power := .num 80, seats := .num 5, price := .num 3 }

/-- A concrete fitted categorical pipeline. -/
def c4fit : FittedCat := { mode := "a", vocab := [("a"), ("b")] }

/-- The state after the training stage has serialized its artifacts. -/
def regState0 : RegState :=
  { artifacts := [("model.pkl"), ("best_model.pkl"), ("preprocessor.pkl"),
      ("feature_importance.csv"), ("evaluation_results.json")]
    tags := [], warnings := [] }

/-- A `Segment` column whose categories first appear in non-sorted
order. -/
def c10col : List (Option String) := [some ("b"), some ("a")]

/-- A `Segment` column with no missing values whose categories first
appear in sorted order. -/
def c10wcol : List (Option String) := [some ("a"), some ("a"), some ("b")]

/-! ## The declarative number grammar

`IsNumMatch` is written from the spec's wording: a signed decimal with
an optional exponent - an optional sign, then a mantissa of the form
`digits`, `digits.digits` or `.digits`, then an optional exponent
`[eE][±]digits`.  The matcher lemmas below relate the executable
`searchNum` to this grammar. -/

/-- Every character of the list is an ASCII digit. -/
def AllDigits (l : List Char) : Prop := ∀ c ∈ l, c.isDigit = true

/-- The character is an explicit sign. -/
def IsSign (c : Char) : Prop := c = '+' ∨ c = '-'

/-- The language of the mantissa `\d*\.?\d+`. -/
def IsMant (m : List Char) : Prop :=
  (m ≠ [] ∧ AllDigits m) ∨
  ∃ d1 d2, d2 ≠ [] ∧ AllDigits d1 ∧ AllDigits d2 ∧ m = d1 ++ '.' :: d2

/-- The language of the exponent `[eE][-+]?\d+`. -/
def IsExp (e : List Char) : Prop :=
  ∃ c sgn d, (c = 'e' ∨ c = 'E') ∧
    (sgn = [] ∨ ∃ s, IsSign s ∧ sgn = [s]) ∧
    d ≠ [] ∧ AllDigits d ∧ e = c :: (sgn ++ d)

/-- The language of the full pattern
`[-+]?\d*\.?\d+(?:[eE][-+]?\d+)?`. -/
def IsNumMatch (m : List Char) : Prop :=
  ∃ sgn mant ex, (sgn = [] ∨ ∃ s, IsSign s ∧ sgn = [s]) ∧
    IsMant mant ∧ (ex = [] ∨ IsExp ex) ∧ m = sgn ++ (mant ++ ex)

/-! ## Matcher lemmas -/

theorem isEmpty_eq_false_iff {α : Type} {l : List α} :
    l.isEmpty = false ↔ l ≠ [] := by
  cases l <;> simp

theorem allDigits_takeDigits (l : List Char) : AllDigits (takeDigits l) :=
  fun _ hc => List.mem_takeWhile_imp hc

theorem takeDigits_append_dropDigits (l : List Char) :
    takeDigits l ++ dropDigits l = l :=
  List.takeWhile_append_dropWhile Char.isDigit l

theorem isMant_ne_nil {m : List Char} (h : IsMant m) : m ≠ [] := by
  rcases h with ⟨hne, -⟩ | ⟨d1, d2, -, -, -, hm⟩
  · exact hne
  · subst hm
    intro hnil
    rcases List.append_eq_nil.1 hnil with ⟨-, h2⟩
    exact absurd h2 (by simp)

theorem isNumMatch_ne_nil {m : List Char} (h : IsNumMatch m) : m ≠ [] := by
  obtain ⟨sgn, mant, ex, -, hmant, -, hm⟩ := h
  subst hm
  intro hnil
  rcases List.append_eq_nil.1 hnil with ⟨-, h2⟩
  rcases List.append_eq_nil.1 h2 with ⟨hmnil, -⟩
  exact isMant_ne_nil hmant hmnil

/-- Soundness of the mantissa matcher: a successful match splits the
input and the matched text is in the mantissa language. -/
theorem matchADot_sound {d1 r1 a r : List Char} (hd : AllDigits d1)
    (h : matchADot d1 r1 = some (a, r)) :
    a ++ r = d1 ++ r1 ∧ IsMant a := by
  cases r1 with
  | nil =>
    rw [matchADot] at h
    by_cases h1 : d1.isEmpty = true
    · rw [if_pos h1] at h
      exact absurd h (by simp)
    · rw [if_neg h1] at h
      simp only [Option.some.injEq, Prod.mk.injEq] at h
      obtain ⟨ha, hr⟩ := h
      subst ha
      subst hr
      refine ⟨rfl, Or.inl ⟨?_, hd⟩⟩
      exact isEmpty_eq_false_iff.1 (Bool.eq_false_iff.2 h1)
  | cons c r2 =>
    rw [matchADot] at h
    by_cases hc : c = '.'
    · rw [if_pos hc] at h
      by_cases h2 : (takeDigits r2).isEmpty = true
      · rw [if_pos h2] at h
        by_cases h1 : d1.isEmpty = true
        · rw [if_pos h1] at h
          exact absurd h (by simp)
        · rw [if_neg h1] at h
          simp only [Option.some.injEq, Prod.mk.injEq] at h
          obtain ⟨ha, hr⟩ := h
          subst ha
          subst hr
          refine ⟨rfl, Or.inl ⟨?_, hd⟩⟩
          exact isEmpty_eq_false_iff.1 (Bool.eq_false_iff.2 h1)
      · rw [if_neg h2] at h
        simp only [Option.some.injEq, Prod.mk.injEq] at h
        obtain ⟨ha, hr⟩ := h
        subst ha
        subst hr
        constructor
        · rw [List.append_assoc, List.cons_append, takeDigits_append_dropDigits, hc]
        · refine Or.inr ⟨d1, takeDigits r2, ?_, hd, allDigits_takeDigits r2, by rw [hc]⟩
          exact isEmpty_eq_false_iff.1 (Bool.eq_false_iff.2 h2)
    · rw [if_neg hc] at h
      by_cases h1 : d1.isEmpty = true
      · rw [if_pos h1] at h
        exact absurd h (by simp)
      · rw [if_neg h1] at h
        simp only [Option.some.injEq, Prod.mk.injEq] at h
        obtain ⟨ha, hr⟩ := h
        subst ha
        subst hr
        refine ⟨rfl, Or.inl ⟨?_, hd⟩⟩
        exact isEmpty_eq_false_iff.1 (Bool.eq_false_iff.2 h1)

theorem matchA_sound {cs a r : List Char} (h : matchA cs = some (a, r)) :
    a ++ r = cs ∧ IsMant a := by
  rw [matchA] at h
  obtain ⟨he, hm⟩ := matchADot_sound (allDigits_takeDigits cs) h
  exact ⟨by rw [he, takeDigits_append_dropDigits], hm⟩

/-- Soundness of the exponent matcher: it always splits the input, and
a nonempty match is in the exponent language. -/
theorem matchB_sound (cs : List Char) :
    (matchB cs).1 ++ (matchB cs).2 = cs ∧
    ((matchB cs).1 = [] ∨ IsExp (matchB cs).1) := by
  match cs with
  | [] => exact ⟨rfl, Or.inl rfl⟩
  | [c] => exact ⟨rfl, Or.inl rfl⟩
  | c :: s :: rest =>
    rw [matchB]
    by_cases hc : c = 'e' ∨ c = 'E'
    · rw [if_pos hc]
      by_cases hs : s = '+' ∨ s = '-'
      · rw [if_pos hs]
        by_cases h2 : (takeDigits rest).isEmpty = true
        · rw [if_pos h2]
          exact ⟨rfl, Or.inl rfl⟩
        · rw [if_neg h2]
          constructor
          · simp only [List.cons_append]
            rw [takeDigits_append_dropDigits]
          · refine Or.inr ⟨c, [s], takeDigits rest, hc,
              Or.inr ⟨s, hs, rfl⟩,
              isEmpty_eq_false_iff.1 (Bool.eq_false_iff.2 h2),
              allDigits_takeDigits rest, rfl⟩
      · rw [if_neg hs]
        by_cases h2 : (takeDigits (s :: rest)).isEmpty = true
        · rw [if_pos h2]
          exact ⟨rfl, Or.inl rfl⟩
        · rw [if_neg h2]
          constructor
          · simp only [List.cons_append]
            rw [takeDigits_append_dropDigits]
          · refine Or.inr ⟨c, [], takeDigits (s :: rest), hc, Or.inl rfl,
              isEmpty_eq_false_iff.1 (Bool.eq_false_iff.2 h2),
              allDigits_takeDigits (s :: rest), by simp⟩
    · rw [if_neg hc]
      exact ⟨rfl, Or.inl rfl⟩

/-- Soundness of the anchored matcher: a successful match splits the
input and the matched text is in the full pattern's language. -/
theorem matchAt_sound {cs m r : List Char} (h : matchAt cs = some (m, r)) :
    m ++ r = cs ∧ IsNumMatch m := by
  cases cs with
  | nil => exact absurd h (by rw [matchAt]; simp)
  | cons c rest =>
    rw [matchAt] at h
    by_cases hc : c = '+' ∨ c = '-'
    · rw [if_pos hc] at h
      cases ha : matchA rest with
      | none => rw [ha] at h; exact absurd h (by simp)
      | some p =>
        obtain ⟨a, r0⟩ := p
        rw [ha] at h
        simp only [Option.some.injEq, Prod.mk.injEq] at h
        obtain ⟨hm, hr⟩ := h
        subst hm
        subst hr
        obtain ⟨hsplit, hmant⟩ := matchA_sound ha
        obtain ⟨hbsplit, hbexp⟩ := matchB_sound r0
        constructor
        · rw [List.cons_append, List.append_assoc, hbsplit, hsplit]
        · exact ⟨[c], a, (matchB r0).1, Or.inr ⟨c, hc, rfl⟩, hmant, hbexp, rfl⟩
    · rw [if_neg hc] at h
      cases ha : matchA (c :: rest) with
      | none => rw [ha] at h; exact absurd h (by simp)
      | some p =>
        obtain ⟨a, r0⟩ := p
        rw [ha] at h
        simp only [Option.some.injEq, Prod.mk.injEq] at h
        obtain ⟨hm, hr⟩ := h
        subst hm
        subst hr
        obtain ⟨hsplit, hmant⟩ := matchA_sound ha
        obtain ⟨hbsplit, hbexp⟩ := matchB_sound r0
        constructor
        · rw [List.append_assoc, hbsplit, hsplit]
        · exact ⟨[], a, (matchB r0).1, Or.inl rfl, hmant, hbexp, by simp⟩

/-- The mantissa matcher succeeds whenever the leading digit run is
nonempty. -/
theorem matchADot_isSome_left {d1 r1 : List Char} (h : d1.isEmpty = false) :
    (matchADot d1 r1).isSome := by
  cases r1 with
  | nil =>
    rw [matchADot, if_neg (by rw [h]; exact Bool.false_ne_true)]
    rfl
  | cons c r2 =>
    rw [matchADot]
    by_cases hc : c = '.'
    · rw [if_pos hc]
      by_cases h2 : (takeDigits r2).isEmpty = true
      · rw [if_pos h2, if_neg (by rw [h]; exact Bool.false_ne_true)]
        rfl
      · rw [if_neg h2]
        rfl
    · rw [if_neg hc, if_neg (by rw [h]; exact Bool.false_ne_true)]
      rfl

/-- The mantissa matcher succeeds on `.` followed by a digit. -/
theorem matchADot_isSome_dot {d1 t : List Char} {d : Char}
    (hd : d.isDigit = true) : (matchADot d1 ('.' :: d :: t)).isSome := by
  rw [matchADot, if_pos rfl]
  have h2 : (takeDigits (d :: t)).isEmpty = false := by
    rw [takeDigits, List.takeWhile_cons_of_pos hd]
    rfl
  rw [if_neg (by rw [h2]; exact Bool.false_ne_true)]
  rfl

theorem matchA_isSome_digit {t : List Char} {c : Char}
    (hc : c.isDigit = true) : (matchA (c :: t)).isSome := by
  rw [matchA]
  apply matchADot_isSome_left
  rw [takeDigits, List.takeWhile_cons_of_pos hc]
  rfl

theorem matchA_isSome_dot {t : List Char} {d : Char}
    (hd : d.isDigit = true) : (matchA ('.' :: d :: t)).isSome := by
  have hdot : ('.').isDigit = false := by decide
  rw [matchA, takeDigits, dropDigits, List.takeWhile_cons_of_neg (by simp [hdot]),
    List.dropWhile_cons_of_neg (by simp [hdot])]
  exact matchADot_isSome_dot hd

/-- A word of the mantissa language starts with a digit or with a dot
followed by a digit. -/
theorem isMant_head {m : List Char} (hm : IsMant m) :
    (∃ c t, m = c :: t ∧ c.isDigit = true) ∨
    (∃ d t, m = '.' :: d :: t ∧ d.isDigit = true) := by
  rcases hm with ⟨hne, hall⟩ | ⟨d1, d2, hne2, hall1, hall2, hm⟩
  · cases m with
    | nil => exact absurd rfl hne
    | cons c t => exact Or.inl ⟨c, t, rfl, hall c (List.mem_cons_self c t)⟩
  · subst hm
    cases d1 with
    | nil =>
      cases d2 with
      | nil => exact absurd rfl hne2
      | cons d dt =>
        exact Or.inr ⟨d, dt, rfl, hall2 d (List.mem_cons_self d dt)⟩
    | cons c ct =>
      exact Or.inl ⟨c, ct ++ '.' :: d2, rfl, hall1 c (List.mem_cons_self c ct)⟩

/-- The mantissa matcher succeeds on any word of the mantissa language,
whatever follows it. -/
theorem matchA_isSome_of_mant {mant : List Char} (hm : IsMant mant)
    (rest : List Char) : (matchA (mant ++ rest)).isSome := by
  rcases isMant_head hm with ⟨c, t, hm1, hc⟩ | ⟨d, t, hm1, hd⟩
  · rw [hm1, List.cons_append]
    exact matchA_isSome_digit hc
  · rw [hm1, List.cons_append, List.cons_append]
    exact matchA_isSome_dot hd

theorem digit_not_sign {c : Char} (hc : c.isDigit = true) :
    ¬(c = '+' ∨ c = '-') := by
  rintro (rfl | rfl) <;> exact absurd hc (by decide)

/-- Completeness of the anchored matcher: it succeeds on any word of
the pattern's language, whatever follows it. -/
theorem matchAt_isSome {m : List Char} (hm : IsNumMatch m)
    (rest : List Char) : (matchAt (m ++ rest)).isSome := by
  obtain ⟨sgn, mant, ex, hsgn, hmant, -, hmeq⟩ := hm
  subst hmeq
  rcases hsgn with rfl | ⟨s, hsign, rfl⟩
  · simp only [List.nil_append, List.append_assoc]
    rcases isMant_head hmant with ⟨c, t, hm1, hc⟩ | ⟨d, t, hm1, hd⟩
    · rw [hm1, List.cons_append, matchAt, if_neg (digit_not_sign hc)]
      have := matchA_isSome_digit (t := t ++ (ex ++ rest)) hc
      cases ha : matchA (c :: (t ++ (ex ++ rest))) with
      | none => rw [ha] at this; exact absurd this (by simp)
      | some p => obtain ⟨a, r0⟩ := p; rfl
    · have hdotsign : ¬(('.') = '+' ∨ ('.') = '-') := by decide
      rw [hm1, List.cons_append, List.cons_append, matchAt, if_neg hdotsign]
      have := matchA_isSome_dot (t := t ++ (ex ++ rest)) hd
      cases ha : matchA ('.' :: d :: (t ++ (ex ++ rest))) with
      | none => rw [ha] at this; exact absurd this (by simp)
      | some p => obtain ⟨a, r0⟩ := p; rfl
  · simp only [List.cons_append, List.nil_append, List.append_assoc]
    have hsign2 : s = '+' ∨ s = '-' := hsign
    rw [matchAt, if_pos hsign2]
    have := matchA_isSome_of_mant hmant (ex ++ rest)
    cases ha : matchA (mant ++ (ex ++ rest)) with
    | none => rw [ha] at this; exact absurd this (by simp)
    | some p => obtain ⟨a, r0⟩ := p; rfl

/-- `searchNum` is complete: when it returns nothing, no substring of
the input is a word of the pattern's language. -/
theorem searchNum_none {cs : List Char} (h : searchNum cs = none) :
    ∀ pre m post, cs = pre ++ m ++ post → ¬ IsNumMatch m := by
  induction cs with
  | nil =>
    intro pre m post heq hm
    have h1 := (List.append_eq_nil.1 heq.symm).1
    exact isNumMatch_ne_nil hm (List.append_eq_nil.1 h1).2
  | cons c rest ih =>
    rw [searchNum] at h
    cases hma : matchAt (c :: rest) with
    | some p => rw [hma] at h; exact absurd h (by simp)
    | none =>
      rw [hma] at h
      intro pre m post heq hm
      cases pre with
      | nil =>
        simp only [List.nil_append] at heq
        have hsome := matchAt_isSome hm post
        rw [← heq, hma] at hsome
        exact absurd hsome (by simp)
      | cons p ps =>
        simp only [List.cons_append, List.cons.injEq] at heq
        exact ih h ps m post heq.2 hm

/-- `searchNum` is sound and leftmost: a returned match is a word of
the pattern's language, occurs in the input, and no word of the
language starts at an earlier position. -/
theorem searchNum_some {cs m : List Char} (h : searchNum cs = some m) :
    IsNumMatch m ∧ ∃ pre post, cs = pre ++ m ++ post ∧
      ∀ pre2 m2 post2, cs = pre2 ++ m2 ++ post2 → IsNumMatch m2 →
        pre.length ≤ pre2.length := by
  induction cs with
  | nil => exact absurd h (by rw [searchNum]; simp)
  | cons c rest ih =>
    rw [searchNum] at h
    cases hma : matchAt (c :: rest) with
    | some p =>
      obtain ⟨a, r0⟩ := p
      rw [hma] at h
      simp only [Option.some.injEq] at h
      subst h
      obtain ⟨hsplit, hnm⟩ := matchAt_sound hma
      refine ⟨hnm, [], r0, by rw [List.nil_append, hsplit], ?_⟩
      intro pre2 m2 post2 _ _
      exact Nat.zero_le _
    | none =>
      rw [hma] at h
      obtain ⟨hm, pre, post, heq, hmin⟩ := ih h
      refine ⟨hm, c :: pre, post, by rw [List.cons_append, List.cons_append, ← heq], ?_⟩
      intro pre2 m2 post2 heq2 hm2
      cases pre2 with
      | nil =>
        exfalso
        simp only [List.nil_append] at heq2
        have hsome := matchAt_isSome hm2 post2
        rw [← heq2, hma] at hsome
        exact absurd hsome (by simp)
      | cons p ps =>
        simp only [List.cons_append, List.cons.injEq] at heq2
        exact Nat.succ_le_succ (hmin ps m2 post2 heq2.2 hm2)

/-! ## Helper lemmas -/

theorem valGt_eq_true {v : Val} {c : ℚ} (h : valGt v c = true) :
    ∃ q, v = .num q ∧ c < q := by
  cases v with
  | num q => exact ⟨q, rfl, of_decide_eq_true h⟩
  | missing => exact absurd h (by simp [valGt])
  | str s => exact absurd h (by simp [valGt])

theorem valGe_eq_true {v : Val} {c : ℚ} (h : valGe v c = true) :
    ∃ q, v = .num q ∧ c ≤ q := by
  cases v with
  | num q => exact ⟨q, rfl, of_decide_eq_true h⟩
  | missing => exact absurd h (by simp [valGe])
  | str s => exact absurd h (by simp [valGe])

/-! ## Claims -/

/-- Claim C1: the Training Engine is deterministic.  Every randomized
component (the train/test split, the row sampling inside the forests,
the grid-search refits) is given the literal seed 42 rather than the
ambient global random state `g`, so the entire training function gives
the same selected hyperparameter configuration and the same evaluation
metrics on two runs over identical input, whatever the ambient states
of the two runs are. -/
theorem c1_training_engine_deterministic (lib : SkLib)
    (featureNames : List String) (X : List (List ℚ)) (y : List ℚ)
    (g₁ g₂ : Nat) :
    train_model lib g₁ featureNames X y = train_model lib g₂ featureNames X y :=
  rfl

/-- Claim C2, as amended: every row surviving the Row Validator/Cleaner
has a present, positive target (`price > 0`) and a present,
non-negative `Kilometers_Driven`, and the output row count never
exceeds the input row count.  (The claim's stronger assertion that all
numeric features of a surviving row are non-negative is refuted by
`c2_counterexample`: only `price` and `Kilometers_Driven` are
filtered.) -/
theorem c2_row_validator (rows : List RawRow) :
    (preprocess_clean rows).length ≤ rows.length ∧
    ∀ r ∈ preprocess_clean rows,
      (∃ p : ℚ, r.price = .num p ∧ 0 < p) ∧
      (∃ k : ℚ, r.kilometersDriven = .num k ∧ 0 ≤ k) := by
  constructor
  · refine le_trans (List.length_filter_le _ _) ?_
    refine le_trans (List.length_filter_le _ _) ?_
    exact le_of_eq (List.length_map _ _)
  · intro r hr
    rw [preprocess_clean, List.mem_filter] at hr
    obtain ⟨-, hcond⟩ := hr
    rw [Bool.and_eq_true] at hcond
    obtain ⟨hp, hk⟩ := hcond
    exact ⟨valGt_eq_true hp, valGe_eq_true hk⟩

/-- Claim C2 counterexample: a row with a negative `Mileage` value (a
negative numeric feature) survives cleaning untouched, because the
cleaning step only filters on `price` and `Kilometers_Driven`.  This
refutes the claim that every surviving row has only non-negative
numeric feature values. -/
theorem c2_counterexample :
    preprocess_clean [c2row] = [c2row] ∧
    c2row.mileage = .num (-1) ∧ ((-1 : ℚ) < 0) := by decide

/-- Claim C2 witness. -/
theorem c2_witness :
    c2wrow ∈ preprocess_clean [c2wrow] ∧
    ((∃ p : ℚ, c2wrow.price = .num p ∧ 0 < p) ∧
      (∃ k : ℚ, c2wrow.kilometersDriven = .num k ∧ 0 ≤ k)) :=
  ⟨by decide, (c2_row_validator [c2wrow]).2 c2wrow (by decide)⟩

/-- Claim C3: the Value Extractor is total (it returns a number or the
missing sentinel for every cell, never an error), an already-numeric
value passes through unchanged, the missing sentinel passes through,
and on text it returns the value of the first (leftmost) substring that
is a signed decimal with optional exponent - with the sentinel exactly
when no substring of the text is in that language. -/
theorem c3_value_extractor :
    (∀ q : ℚ, extract_float (.num q) = .num q) ∧
    (extract_float .missing = .missing) ∧
    (∀ v, (∃ q, extract_float v = .num q) ∨ extract_float v = .missing) ∧
    (∀ s : String, searchNum s.data = none →
      extract_float (.str s) = .missing ∧
      ∀ pre m post, s.data = pre ++ m ++ post → ¬ IsNumMatch m) ∧
    (∀ s : String, ∀ m, searchNum s.data = some m →
      extract_float (.str s) = .num (parseFloatChars m) ∧ IsNumMatch m ∧
      ∃ pre post, s.data = pre ++ m ++ post ∧
        ∀ pre2 m2 post2, s.data = pre2 ++ m2 ++ post2 → IsNumMatch m2 →
          pre.length ≤ pre2.length) := by
  refine ⟨fun q => rfl, rfl, ?_, ?_, ?_⟩
  · intro v
    cases v with
    | missing => exact Or.inr rfl
    | num q => exact Or.inl ⟨q, rfl⟩
    | str s =>
      cases hs : searchNum s.data with
      | some m =>
        refine Or.inl ⟨parseFloatChars m, ?_⟩
        simp only [extract_float]
        rw [hs]
      | none =>
        refine Or.inr ?_
        simp only [extract_float]
        rw [hs]
  · intro s h
    constructor
    · simp only [extract_float]
      rw [h]
    · exact searchNum_none h
  · intro s m h
    obtain ⟨hnm, pre, post, heq, hmin⟩ := searchNum_some h
    refine ⟨?_, hnm, pre, post, heq, hmin⟩
    simp only [extract_float]
    rw [h]

/-- Claim C3 witness. -/
theorem c3_witness :
    searchNum ("ab-12.5e1x").data = some ['-', '1', '2', '.', '5', 'e', '1'] ∧
    extract_float (.str ("ab-12.5e1x")) =
      .num (parseFloatChars ['-', '1', '2', '.', '5', 'e', '1']) ∧
    searchNum ("null").data = none ∧
    extract_float (.str ("null")) = .missing :=
  ⟨by decide,
    (c3_value_extractor.2.2.2.2 ("ab-12.5e1x") ['-', '1', '2', '.', '5', 'e', '1']
      (by decide)).1,
    by decide,
    (c3_value_extractor.2.2.2.1 ("null") (by decide)).1⟩

/-- Claim C4: applying a fitted categorical pipeline to a category
outside the fit-time vocabulary produces the all-zero encoding over
that column's one-hot positions, and for every input (seen, unseen or
missing) the output column count equals the fit-time vocabulary size -
no error is possible (`applyCat` is total) and no column is ever
added. -/
theorem c4_unseen_category_all_zero (f : FittedCat) (c : String)
    (h : c ∉ f.vocab) :
    applyCat f (some c) = List.replicate f.vocab.length 0 ∧
    ∀ x : Option String, (applyCat f x).length = f.vocab.length := by
  constructor
  · rw [applyCat, imputeCat, Option.getD_some, oneHot]
    refine List.eq_replicate_iff.2 ⟨by rw [List.length_map], ?_⟩
    intro b hb
    obtain ⟨v, hv, hvb⟩ := List.mem_map.1 hb
    rw [← hvb, if_neg]
    intro hvc
    exact h (hvc ▸ hv)
  · intro x
    rw [applyCat, oneHot, List.length_map]

/-- Claim C4 witness. -/
theorem c4_witness :
    ("z") ∉ c4fit.vocab ∧
    (applyCat c4fit (some ("z")) = List.replicate c4fit.vocab.length 0 ∧
      ∀ x : Option String, (applyCat c4fit x).length = c4fit.vocab.length) :=
  ⟨by decide, c4_unseen_category_all_zero c4fit ("z") (by decide)⟩

/-- Claim C5, as amended: the Evaluator computes improvement percent as
`(baseline RMSE - best RMSE) / baseline RMSE * 100` whenever baseline
RMSE is nonzero; when baseline RMSE equals zero the division is still
performed and a non-finite IEEE value propagates silently: `-inf` when
the best RMSE is positive, `nan` when it is also zero.  (The claim's
assertion that a zero baseline is reported as undefined instead of
being divided by is refuted by `c5_counterexample`.) -/
theorem c5_improvement_formula :
    (∀ b s : ℚ, b ≠ 0 →
      improvement_percent (.fin b) (.fin s) = .fin ((b - s) / b * 100)) ∧
    (∀ s : ℚ, 0 < s → improvement_percent (.fin 0) (.fin s) = .negInf) ∧
    improvement_percent (.fin 0) (.fin 0) = .nan := by
  refine ⟨?_, ?_, ?_⟩
  · intro b s hb
    rw [improvement_percent, fsub, fdiv, if_neg hb, fmul]
  · intro s hs
    rw [improvement_percent, fsub, fdiv, if_pos rfl, if_neg, if_neg, fmul,
      if_neg, if_pos]
    · norm_num
    · norm_num
    · rw [not_lt]
      linarith
    · intro h0
      rw [zero_sub, neg_eq_zero] at h0
      exact absurd h0 (ne_of_gt hs)
  · rw [improvement_percent, fsub, sub_self, fdiv, if_pos rfl, if_pos rfl, fmul]

/-- Claim C5 counterexample: with a zero baseline RMSE the code does
perform the division; nothing reports the improvement as undefined -
the IEEE non-finite result propagates silently into the metrics. -/
theorem c5_counterexample :
    improvement_percent (.fin 0) (.fin 1) = .negInf ∧
    improvement_percent (.fin 0) (.fin 0) = .nan := by
  constructor
  · rw [improvement_percent, fsub, fdiv, if_pos rfl, if_neg, if_neg, fmul,
      if_neg, if_pos]
    · norm_num
    · norm_num
    · norm_num
    · norm_num
  · rw [improvement_percent, fsub, sub_self, fdiv, if_pos rfl, if_pos rfl, fmul]

/-- Claim C5 witness. -/
theorem c5_witness :
    (2 : ℚ) ≠ 0 ∧
    improvement_percent (.fin 2) (.fin 1) = .fin ((2 - 1) / 2 * 100) :=
  ⟨by decide, c5_improvement_formula.1 2 1 (by decide)⟩

/-- Claim C6, as amended: the persisted feature-importance ranking is
the model's native importance scores, one per transformed output
column, sorted in descending order of score and a permutation of the
name/score pairs; the relative order of tied scores is NOT the original
column order (pandas reverses a stable ascending argsort for
`ascending=False`, so equal scores come out in reversed original
order - see `c6_counterexample`). -/
theorem c6_feature_importance_sorted (names : List String) (scores : List ℚ) :
    List.Sorted (fun a b : String × ℚ => b.2 ≤ a.2)
      (feature_importance names scores) ∧
    List.Perm (feature_importance names scores) (names.zip scores) := by
  constructor
  · rw [feature_importance, sort_values_desc]
    have h := List.sorted_insertionSort impLe (names.zip scores)
    rw [List.Sorted] at h ⊢
    rw [List.pairwise_reverse]
    exact h.imp (fun hab => hab)
  · rw [feature_importance, sort_values_desc]
    exact (List.reverse_perm _).trans (List.perm_insertionSort impLe _)

/-- Claim C6 counterexample: two features with equal importance scores
come out in reversed original order, refuting the claim that ties are
broken by the original column order. -/
theorem c6_counterexample :
    feature_importance [("f1"), ("f2")] [1, 1] =
      [(("f2"), (1 : ℚ)), (("f1"), 1)] ∧
    feature_importance [("f1"), ("f2")] [1, 1] ≠
      [(("f1"), (1 : ℚ)), (("f2"), 1)] := by decide

/-- Claim C7: the Search stage (`GridSearchCV(..., cv=3).fit`) fails
with the insufficient-data error whenever the training split is empty
or has fewer rows than the fold count 3; it never returns a result by
falling back to fewer folds. -/
theorem c7_insufficient_data (lib : SkLib) (g : Nat)
    (X : List (List ℚ)) (y : List ℚ) (h : X.length < 3) :
    grid_search_fit lib g X y = .error .insufficientData := by
  rw [grid_search_fit, if_pos h]

/-- Claim C7 witness. -/
theorem c7_witness :
    ([] : List (List ℚ)).length < 3 ∧
    grid_search_fit skLib0 0 [] [] = .error .insufficientData :=
  ⟨by decide, c7_insufficient_data skLib0 0 [] [] (by decide)⟩

/-- Claim C8, as amended: for the explicit registration call wrapped in
`try/except` (register.py lines 117-131) a registry failure is caught -
given that the earlier registration inside `log_model` succeeded, the
step completes without raising whatever the guarded call answers, and a
failure there is recorded as a warning.  The already-serialized local
artifacts are never discarded, not even when the step does raise.  (The
claim's assertion that *every* registration failure is non-fatal is
refuted by `c8_counterexample`: the registration attempt inside
`mlflow.sklearn.log_model(..., registered_model_name=...)` at
register.py lines 94-100 is unguarded and its failure propagates to the
caller.) -/
theorem c8_registration_guarded_nonfatal (logV : Nat)
    (registry : RegistryOutcome) (name : String) (st : RegState) :
    (∃ summ, (register_model (.registered logV) registry name st).2 = .ok summ) ∧
    (∀ msg, (register_model (.registered logV) (.failure msg) name st).1.warnings =
      st.warnings ++ [msg]) ∧
    (∀ logR, (register_model logR registry name st).1.artifacts = st.artifacts) := by
  refine ⟨?_, fun msg => rfl, ?_⟩
  · cases registry with
    | registered v => exact ⟨_, rfl⟩
    | failure m => exact ⟨_, rfl⟩
  · intro logR
    cases logR with
    | registered v =>
      cases registry with
      | registered w => rfl
      | failure m => rfl
    | failure m => rfl

/-- Claim C8 counterexample: when the registry collaborator fails
during the unguarded `log_model` registration (register.py lines
94-100), the registration step raises to the caller instead of
completing - refuting the claim for that registration attempt.  Even
then the already-serialized artifacts are not discarded. -/
theorem c8_counterexample :
    (register_model (.failure ("registry unreachable")) (.registered 1)
        ("carsales") regState0).2 =
      .error (.raised ("registry unreachable")) ∧
    (register_model (.failure ("registry unreachable")) (.registered 1)
        ("carsales") regState0).1.artifacts = regState0.artifacts := by
  exact ⟨rfl, rfl⟩

/-- Claim C9: `transform` on an already-fitted Feature Transformer does
not mutate the fitted statistics (the transformer after the call is the
input transformer), hence applying it twice to identical input yields
identical output. -/
theorem c9_apply_idempotent (t : Transformer) (xs : List InRow) :
    (transform t xs).2 = t ∧
    transform (transform t xs).2 xs = transform t xs :=
  ⟨rfl, rfl⟩

/-- Claim C10, as amended: the persisted feature-name list names the
transformed output columns - the five numeric names first, then one
`Segment_<cat>` name per vocabulary entry, with one entry per output
column - exactly when the raw column's first-appearance distinct values
coincide with the encoder's fitted vocabulary (sorted, post-imputation);
in particular the column must have no missing values and its categories
must first appear in ascending order.  Otherwise the name order differs
from the column order (see `c10_counterexample`). -/
theorem c10_feature_names_aligned (col : List (Option String))
    (h : firstUnique col = ((fitCat col).vocab).map some) :
    feature_names col = alignedNames ((fitCat col).vocab) ∧
    (feature_names col).length =
      numeric_features.length + ((fitCat col).vocab).length ∧
    ∀ x, numeric_features.length + (applyCat (fitCat col) x).length =
      (feature_names col).length := by
  have hnames : feature_names col = alignedNames ((fitCat col).vocab) := by
    rw [feature_names, alignedNames, h, List.map_map]
    rfl
  refine ⟨hnames, ?_, ?_⟩
  · rw [hnames, alignedNames, List.length_append, List.length_map]
  · intro x
    rw [hnames, alignedNames, List.length_append, List.length_map,
      applyCat, oneHot, List.length_map]

/-- Claim C10 counterexample: with categories first appearing in the
order `b, a`, the persisted names put `Segment_b` before `Segment_a`,
but the fitted vocabulary - and hence the one-hot column order - is the
sorted `[a, b]`: the i-th name does not name the i-th output column. -/
theorem c10_counterexample :
    feature_names c10col ≠ alignedNames ((fitCat c10col).vocab) ∧
    (fitCat c10col).vocab = [("a"), ("b")] ∧
    feature_names c10col =
      numeric_features ++ [("Segment_b"), ("Segment_a")] := by decide

/-- Claim C10 witness. -/
theorem c10_witness :
    firstUnique c10wcol = ((fitCat c10wcol).vocab).map some ∧
    (feature_names c10wcol = alignedNames ((fitCat c10wcol).vocab) ∧
      (feature_names c10wcol).length =
        numeric_features.length + ((fitCat c10wcol).vocab).length ∧
      ∀ x, numeric_features.length + (applyCat (fitCat c10wcol) x).length =
        (feature_names c10wcol).length) :=
  ⟨by decide, c10_feature_names_aligned c10wcol (by decide)⟩

end CarSales
